import Mathlib

/-!
Verification of the reservation-scraping pipeline of the vnp-automation-backend
repository.  The repository contains two near-duplicate implementations of the
pipeline: `src/index.js` (property looked up by name; referred to below with the
suffix `X`) and `src/unnamed/part_000` (property looked up by id; suffix `V2`).
The browser, the portal DOM and the spreadsheet reader are external
collaborators; they are modelled as explicit environment values that record
what each DOM query or wait returns (or that it throws).  All definitions are
translated from the JavaScript source; definitions whose name contains `spec`
or `Spec` restate the natural-language specification for comparison.
-/

/-! ## Input sheet model and WorkItem construction (`getDataFromSheet`)

A sheet row carries the value of the property column ("Property Name" in
`index.js`, "Property ID" in `part_000`) and the value of the
"Reservation ID" column.  `sheet_to_json` is called with `defval: ""`, so a
missing cell is the empty string, and JavaScript truthiness of the string
value is emptiness.  The JavaScript `hashMap` object is modelled as a lookup
function `String → Option Nat`. -/

structure SheetRow where
  prop : String
  rid : String

structure WorkItem where
  name : String
  idList : List String
deriving DecidableEq

/-- State of the grouping loop in `getDataFromSheet`: the `hashMap` object
(property value to 1-based discovery index), the `hotels` array, and `cnt`. -/
structure GState where
  m : String → Option Nat
  hotels : List WorkItem
  cnt : Nat

/-- Replacement of the element at index `i` (JavaScript
`hotels[idx].idList.push(...)` mutates the element in place). -/
def listModify {α : Type} (f : α → α) : Nat → List α → List α
  | _, [] => []
  | 0, a :: l => f a :: l
  | n + 1, a :: l => a :: listModify f n l

/-- The own property names of `Object.prototype`.  `hashMap` is the object
literal `{}`, so a property read `hashMap[prop]` falls back to the prototype
chain: for these keys the read yields an inherited function (or, for
`__proto__`, the prototype object itself), which is truthy even though no own
property was ever assigned. -/
def protoKeys : List String :=
  ["constructor", "hasOwnProperty", "isPrototypeOf", "propertyIsEnumerable",
   "toLocaleString", "toString", "valueOf", "__proto__",
   "__defineGetter__", "__defineSetter__", "__lookupGetter__", "__lookupSetter__"]

/-- One iteration of the `for (const item of sheetData)` loop of
`getDataFromSheet`: a row with a falsy property value is skipped; when
`!hashMap[prop]` is true (no own entry and no inherited `Object.prototype`
value) the property is recorded with index `++cnt` and a new hotel entry is
pushed; otherwise the reservation id is appended to
`hotels[hashMap[prop] - 1].idList`.  When the truthy lookup result is an
inherited prototype member rather than a stored number, `hashMap[prop] - 1`
is `NaN`, `hotels[NaN]` is `undefined`, and reading `.idList` on it throws a
TypeError, modelled as `error`. -/
def gdfsStep (st : GState) (item : SheetRow) : Except Unit GState :=
  if item.prop = "" then .ok st
  else
    match st.m item.prop with
    | some i =>
        .ok { st with
          hotels := listModify (fun h => ⟨h.name, h.idList ++ [item.rid]⟩) (i - 1) st.hotels }
    | none =>
        if protoKeys.contains item.prop then .error ()
        else
          .ok { m := fun q => if q = item.prop then some (st.cnt + 1) else st.m q
                hotels := st.hotels ++ [⟨item.prop, [item.rid]⟩]
                cnt := st.cnt + 1 }

/-- The grouping loop of `getDataFromSheet`; a thrown TypeError aborts it. -/
def gdfsGo : List SheetRow → GState → Except Unit GState
  | [], st => .ok st
  | item :: rest, st =>
      match gdfsStep st item with
      | .error e => .error e
      | .ok st1 => gdfsGo rest st1

/-- Pure core of `getDataFromSheet`: the guard
`!Array.isArray(sheetData) || sheetData.length === 0` returns `[]`; a throw
inside the loop is caught by the surrounding try/catch, which logs and
returns `[]`; otherwise `hotels` is returned. -/
def getDataFromSheet (sheetData : List SheetRow) : List WorkItem :=
  if sheetData.isEmpty then []
  else
    match gdfsGo sheetData ⟨fun _ => none, [], 0⟩ with
    | .error _ => []
    | .ok st => st.hotels

/-- Index of the first occurrence of a string in a list. -/
def posOf : List String → String → Option Nat
  | [], _ => none
  | k :: ks, q => if k = q then some 0 else (posOf ks q).map (· + 1)

/-- First-seen distinct non-empty property values of the sheet, written from
the specification of WorkItem construction ("one entry per distinct property
value in first-seen order"). -/
def keysGo : List SheetRow → List String → List String
  | [], acc => acc
  | r :: rs, acc =>
      keysGo rs
        (if r.prop = "" then acc
         else if (posOf acc r.prop).isSome then acc else acc ++ [r.prop])

/-- First-seen distinct property keys of a sheet. -/
def keysList (l : List SheetRow) : List String := keysGo l []

/-- Specification-side WorkItem construction: one WorkItem per first-seen
distinct property value, whose search terms are exactly the reservation ids
of that property in input row order, duplicates preserved. -/
def workItemsSpec (l : List SheetRow) : List WorkItem :=
  (keysList l).map fun p => ⟨p, (l.filter fun r => r.prop = p).map fun r => r.rid⟩

lemma gdfsGo_append (l1 l2 : List SheetRow) (st : GState) :
    gdfsGo (l1 ++ l2) st =
      match gdfsGo l1 st with
      | .error e => .error e
      | .ok st1 => gdfsGo l2 st1 := by
  induction l1 generalizing st with
  | nil => rfl
  | cons r rs ih =>
      show (match gdfsStep st r with
            | Except.error e => Except.error e
            | Except.ok st1 => gdfsGo (rs ++ l2) st1) = _
      cases hs : gdfsStep st r with
      | error e =>
          have h2 : gdfsGo (r :: rs) st = Except.error e := by
            simp only [gdfsGo, hs]
          rw [h2]
      | ok st1 =>
          have h2 : gdfsGo (r :: rs) st = gdfsGo rs st1 := by
            simp only [gdfsGo, hs]
          rw [h2]
          exact ih st1

lemma keysGo_append (l1 l2 : List SheetRow) (acc : List String) :
    keysGo (l1 ++ l2) acc = keysGo l2 (keysGo l1 acc) := by
  induction l1 generalizing acc with
  | nil => rfl
  | cons r rs ih => simp [keysGo, ih]

lemma posOf_isSome_iff (ks : List String) (q : String) :
    (posOf ks q).isSome ↔ q ∈ ks := by
  induction ks with
  | nil => simp [posOf]
  | cons k ks ih =>
      by_cases h : k = q
      · simp [posOf, h]
      · simp [posOf, h, ih, Ne.symm h]

lemma posOf_append_one (ks : List String) (x q : String) :
    posOf (ks ++ [x]) q =
      match posOf ks q with
      | some j => some j
      | none => if x = q then some ks.length else none := by
  induction ks with
  | nil => simp [posOf]
  | cons k ks ih =>
      by_cases h : k = q
      · simp [posOf, h]
      · have e1 : posOf (k :: (ks ++ [x])) q = (posOf (ks ++ [x]) q).map (· + 1) := by
          simp [posOf, h]
        have e2 : posOf (k :: ks) q = (posOf ks q).map (· + 1) := by
          simp [posOf, h]
        rw [List.cons_append, e1, ih, e2]
        cases hp : posOf ks q with
        | some j => simp
        | none =>
            by_cases hx : x = q
            · simp [hx]
            · simp [hx]

lemma mem_keysGo (l : List SheetRow) (acc : List String) (p : String) :
    p ∈ keysGo l acc ↔ p ∈ acc ∨ (p ≠ "" ∧ ∃ r, r ∈ l ∧ r.prop = p) := by
  induction l generalizing acc with
  | nil => simp [keysGo]
  | cons r rs ih =>
      by_cases h0 : r.prop = ""
      · rw [keysGo, if_pos h0, ih]
        constructor
        · rintro (h | ⟨hne, rr, hm, he⟩)
          · exact Or.inl h
          · exact Or.inr ⟨hne, rr, List.mem_cons_of_mem _ hm, he⟩
        · rintro (h | ⟨hne, rr, hm, he⟩)
          · exact Or.inl h
          · rcases List.mem_cons.mp hm with hm | hm
            · subst hm; exact absurd (he.symm.trans h0) hne
            · exact Or.inr ⟨hne, rr, hm, he⟩
      · by_cases h1 : (posOf acc r.prop).isSome
        · have hmem : r.prop ∈ acc := (posOf_isSome_iff acc r.prop).1 h1
          rw [keysGo, if_neg h0, if_pos h1, ih]
          constructor
          · rintro (h | ⟨hne, rr, hm, he⟩)
            · exact Or.inl h
            · exact Or.inr ⟨hne, rr, List.mem_cons_of_mem _ hm, he⟩
          · rintro (h | ⟨hne, rr, hm, he⟩)
            · exact Or.inl h
            · rcases List.mem_cons.mp hm with hm | hm
              · subst hm; exact Or.inl (he ▸ hmem)
              · exact Or.inr ⟨hne, rr, hm, he⟩
        · rw [keysGo, if_neg h0, if_neg h1, ih]
          constructor
          · rintro (h | ⟨hne, rr, hm, he⟩)
            · rcases List.mem_append.mp h with h | h
              · exact Or.inl h
              · have hpe : p = r.prop := List.mem_singleton.mp h
                exact Or.inr ⟨fun hc => h0 (hpe.symm.trans hc), r,
                  List.mem_cons_self r rs, hpe.symm⟩
            · exact Or.inr ⟨hne, rr, List.mem_cons_of_mem _ hm, he⟩
          · rintro (h | ⟨hne, rr, hm, he⟩)
            · exact Or.inl (List.mem_append.mpr (Or.inl h))
            · rcases List.mem_cons.mp hm with hm | hm
              · subst hm
                exact Or.inl (List.mem_append.mpr
                  (Or.inr (List.mem_singleton.mpr he.symm)))
              · exact Or.inr ⟨hne, rr, hm, he⟩

lemma keysGo_nodup (l : List SheetRow) (acc : List String) (h : acc.Nodup) :
    (keysGo l acc).Nodup := by
  induction l generalizing acc with
  | nil => exact h
  | cons r rs ih =>
      by_cases h0 : r.prop = ""
      · simpa [keysGo, h0] using ih acc h
      · by_cases h1 : (posOf acc r.prop).isSome
        · simpa [keysGo, h0, h1] using ih acc h
        · have hnm : r.prop ∉ acc := fun hm =>
            h1 ((posOf_isSome_iff acc r.prop).2 hm)
          have : (acc ++ [r.prop]).Nodup := by
            simp [List.nodup_append, h, hnm]
          simpa [keysGo, h0, h1] using ih _ this

lemma ne_empty_of_mem_keysList {l : List SheetRow} {p : String}
    (h : p ∈ keysList l) : p ≠ "" := by
  rcases (mem_keysGo l [] p).1 h with h | ⟨hne, _⟩
  · cases h
  · exact hne

lemma filter_eq_nil_of_not_mem_keysList {l : List SheetRow} {p : String}
    (hp : p ≠ "") (h : p ∉ keysList l) :
    (l.filter fun r => r.prop = p) = [] := by
  rw [List.filter_eq_nil_iff]
  intro r hr
  simp only [decide_eq_true_eq]
  intro he
  exact h ((mem_keysGo l [] p).2 (Or.inr ⟨hp, r, hr, he⟩))

lemma listModify_map_posOf (F : String → WorkItem) (g : WorkItem → WorkItem) :
    ∀ (ks : List String) (q : String) (j : Nat), ks.Nodup → posOf ks q = some j →
      listModify g j (ks.map F) = ks.map fun p => if p = q then g (F p) else F p := by
  intro ks
  induction ks with
  | nil => intro q j _ hj; cases hj
  | cons k ks ih =>
      intro q j hnd hj
      by_cases h : k = q
      · subst h
        have hj0 : j = 0 := by simp [posOf] at hj; omega
        subst hj0
        simp only [List.map_cons, listModify, if_pos rfl]
        congr 1
        refine (List.map_congr_left fun p hp => ?_).symm
        have hpk : p ≠ k := fun hc => (List.nodup_cons.mp hnd).1 (hc ▸ hp)
        rw [if_neg hpk]
      · simp only [posOf, if_neg h] at hj
        cases hp : posOf ks q with
        | none => rw [hp] at hj; cases hj
        | some j0 =>
            rw [hp] at hj
            have hj1 : j0 + 1 = j := by simpa using hj
            subst hj1
            simp only [List.map_cons, listModify]
            rw [ih q j0 (List.nodup_cons.mp hnd).2 hp, if_neg h]

lemma keysList_append_one (l : List SheetRow) (r : SheetRow) :
    keysList (l ++ [r]) =
      if r.prop = "" then keysList l
      else if (posOf (keysList l) r.prop).isSome then keysList l
      else keysList l ++ [r.prop] := by
  unfold keysList
  rw [keysGo_append]
  rfl

lemma gdfsStep_skip (st : GState) (r : SheetRow) (h : r.prop = "") :
    gdfsStep st r = .ok st := by
  simp [gdfsStep, h]

lemma gdfsStep_new (st : GState) (r : SheetRow) (h0 : ¬ r.prop = "")
    (hm : st.m r.prop = none) (hp : protoKeys.contains r.prop = false) :
    gdfsStep st r =
      .ok ⟨fun q => if q = r.prop then some (st.cnt + 1) else st.m q,
        st.hotels ++ [⟨r.prop, [r.rid]⟩], st.cnt + 1⟩ := by
  have hp2 : r.prop ∉ protoKeys := by simpa using hp
  simp [gdfsStep, h0, hm, hp2]

lemma gdfsStep_seen (st : GState) (r : SheetRow) (i : Nat) (h0 : ¬ r.prop = "")
    (hm : st.m r.prop = some i) :
    gdfsStep st r =
      .ok { st with
        hotels := listModify (fun h => ⟨h.name, h.idList ++ [r.rid]⟩) (i - 1) st.hotels } := by
  simp [gdfsStep, h0, hm]

lemma gdfsStep_proto (st : GState) (r : SheetRow) (h0 : ¬ r.prop = "")
    (hm : st.m r.prop = none) (hp : protoKeys.contains r.prop = true) :
    gdfsStep st r = .error () := by
  have hp2 : r.prop ∈ protoKeys := by simpa using hp
  simp [gdfsStep, h0, hm, hp2]

/-- Invariant of the grouping loop of `getDataFromSheet` on sheets whose
property values never collide with an `Object.prototype` key, proved by
induction on the processed prefix: the loop succeeds, the accumulated
`hotels` array equals the specification-side grouping, `cnt` is the number
of distinct keys seen, and the hash map sends each key to its 1-based
first-seen index. -/
lemma gdfs_invariant (l : List SheetRow)
    (hl : ∀ r ∈ l, protoKeys.contains r.prop = false) :
    ∃ st : GState, gdfsGo l ⟨fun _ => none, [], 0⟩ = .ok st ∧
      st.hotels = workItemsSpec l ∧
      st.cnt = (keysList l).length ∧
      ∀ p, st.m p = (posOf (keysList l) p).map (· + 1) := by
  induction l using List.reverseRecOn with
  | nil => exact ⟨⟨fun _ => none, [], 0⟩, rfl, rfl, rfl, fun p => rfl⟩
  | append_singleton l r ih =>
      have hl' : ∀ rr ∈ l, protoKeys.contains rr.prop = false := fun rr hrr =>
        hl rr (List.mem_append.mpr (Or.inl hrr))
      have hrp0 : protoKeys.contains r.prop = false :=
        hl r (List.mem_append.mpr (Or.inr (List.mem_singleton.mpr rfl)))
      obtain ⟨st, hok, ihH, ihC, ihM⟩ := ih hl'
      have hstep : gdfsGo (l ++ [r]) ⟨fun _ => none, [], 0⟩ = gdfsStep st r := by
        rw [gdfsGo_append, hok]
        show gdfsGo [r] st = gdfsStep st r
        cases hs : gdfsStep st r with
        | error e => simp only [gdfsGo, hs]
        | ok st1 => simp only [gdfsGo, hs]
      by_cases h0 : r.prop = ""
      · have hkeys : keysList (l ++ [r]) = keysList l := by
          rw [keysList_append_one, if_pos h0]
        have hspec : workItemsSpec (l ++ [r]) = workItemsSpec l := by
          unfold workItemsSpec
          rw [hkeys]
          refine List.map_congr_left fun p hp => ?_
          have hpne : p ≠ "" := ne_empty_of_mem_keysList hp
          have hrp : ¬ (r.prop = p) := fun hc => hpne (hc ▸ h0)
          rw [List.filter_append, List.filter_singleton]
          simp [hrp]
        refine ⟨st, ?_, ?_, ?_, ?_⟩
        · rw [hstep, gdfsStep_skip st r h0]
        · rw [ihH, hspec]
        · rw [ihC, hkeys]
        · intro p
          rw [ihM p, hkeys]
      · by_cases h1 : (posOf (keysList l) r.prop).isSome
        · -- the property was already seen: append the rid to its idList
          obtain ⟨j, hj⟩ := Option.isSome_iff_exists.mp h1
          have hm : st.m r.prop = some (j + 1) := by
            rw [ihM, hj]; rfl
          have hkeys : keysList (l ++ [r]) = keysList l := by
            rw [keysList_append_one, if_neg h0, if_pos h1]
          have hnd : (keysList l).Nodup := keysGo_nodup l [] List.nodup_nil
          have hspec : workItemsSpec (l ++ [r]) =
              listModify (fun h => ⟨h.name, h.idList ++ [r.rid]⟩) j (workItemsSpec l) := by
            unfold workItemsSpec
            rw [hkeys, listModify_map_posOf _ _ (keysList l) r.prop j hnd hj]
            refine List.map_congr_left fun p hp => ?_
            by_cases hpq : p = r.prop
            · rw [if_pos hpq, List.filter_append, List.filter_singleton]
              simp [hpq.symm]
            · have hrp : ¬ (r.prop = p) := fun hc => hpq hc.symm
              rw [if_neg hpq, List.filter_append, List.filter_singleton]
              simp [hrp]
          refine ⟨⟨st.m,
              listModify (fun h => ⟨h.name, h.idList ++ [r.rid]⟩) ((j + 1) - 1) st.hotels,
              st.cnt⟩, ?_, ?_, ?_, ?_⟩
          · rw [hstep, gdfsStep_seen st r (j + 1) h0 hm]
          · show listModify _ ((j + 1) - 1) st.hotels = _
            simp only [Nat.add_sub_cancel]
            rw [ihH, hspec]
          · show st.cnt = _
            rw [ihC, hkeys]
          · intro p
            show st.m p = _
            rw [ihM p, hkeys]
        · -- a new property: push a fresh hotel entry
          have hnone : posOf (keysList l) r.prop = none :=
            Option.not_isSome_iff_eq_none.mp h1
          have hm : st.m r.prop = none := by
            rw [ihM, hnone]; rfl
          have hnotmem : r.prop ∉ keysList l := fun hmem =>
            h1 ((posOf_isSome_iff _ _).2 hmem)
          have hkeys : keysList (l ++ [r]) = keysList l ++ [r.prop] := by
            rw [keysList_append_one, if_neg h0, if_neg h1]
          have hspec : workItemsSpec (l ++ [r]) =
              workItemsSpec l ++ [⟨r.prop, [r.rid]⟩] := by
            unfold workItemsSpec
            rw [hkeys, List.map_append]
            congr 1
            · refine List.map_congr_left fun p hp => ?_
              have hrp : ¬ (r.prop = p) := fun hc => hnotmem (hc ▸ hp)
              rw [List.filter_append, List.filter_singleton]
              simp [hrp]
            · simp only [List.map_singleton]
              congr 1
              rw [List.filter_append, filter_eq_nil_of_not_mem_keysList h0 hnotmem,
                List.filter_singleton]
              simp
          refine ⟨⟨fun q => if q = r.prop then some (st.cnt + 1) else st.m q,
            st.hotels ++ [⟨r.prop, [r.rid]⟩], st.cnt + 1⟩, ?_, ?_, ?_, ?_⟩
          · rw [hstep, gdfsStep_new st r h0 hm hrp0]
          · show st.hotels ++ [⟨r.prop, [r.rid]⟩] = _
            rw [ihH]
            exact hspec.symm
          · show st.cnt + 1 = _
            rw [ihC, hkeys]
            simp
          · intro p
            show (if p = r.prop then some (st.cnt + 1) else st.m p) = _
            by_cases hpq : p = r.prop
            · subst hpq
              simp only [if_pos rfl]
              rw [hkeys, posOf_append_one, hnone]
              simp only [if_pos rfl, ihC]
              rfl
            · simp only [if_neg hpq]
              rw [ihM p, hkeys, posOf_append_one]
              rcases hp : posOf (keysList l) p with _ | j
              · have hrp : ¬ (r.prop = p) := fun hc => hpq hc.symm
                simp [hrp]
              · rfl

/-- On sheets free of `Object.prototype` key collisions, the pure core of
`getDataFromSheet` computes exactly the specification-side WorkItem
grouping. -/
lemma gdfs_eq_spec (l : List SheetRow)
    (hl : ∀ r ∈ l, protoKeys.contains r.prop = false) :
    getDataFromSheet l = workItemsSpec l := by
  unfold getDataFromSheet
  cases l with
  | nil => rfl
  | cons r rs =>
      rw [if_neg (by simp)]
      obtain ⟨st, hok, ihH, _, _⟩ := gdfs_invariant (r :: rs) hl
      rw [hok]
      exact ihH

/-! ## Reservation records

`basicData` is read from the table row before the detail dialog is opened.
The remaining fields of an emitted record object are optional, mirroring the
fact that different emission sites of `processReservationsPage` set different
keys of the pushed JavaScript object; a key that is not set is `none`. -/

structure BasicData where
  guestName : String
  reservationId : String
  confirmationCode : String
  checkInDate : String
  checkOutDate : String
  roomType : String
  bookingAmount : String
  bookedDate : String
deriving DecidableEq

structure DetailFields where
  cardNumber : Option String
  expiryDate : Option String
  cvv : Option String
  hasCardInfo : Option Bool
  hasPaymentInfo : Option Bool
  totalGuestPayment : Option String
  cancellationFee : Option String
  expediaCompensation : Option String
  totalPayout : Option String
  remainingAmountToCharge : Option String
  amountToRefund : Option String
  amountToChargeOrRefund : Option String
  reasonOfCharge : Option String
  status : Option String
  propertyId : Option String
  propertyName : Option String
  additionalText : Option String
  amount : Option String
deriving DecidableEq

/-- Detail fields of a pushed record object before any key is set. -/
def noFields : DetailFields :=
  ⟨none, none, none, none, none, none, none, none, none, none, none, none,
   none, none, none, none, none, none⟩

/-- One emitted reservation record: the spread `...basicData` together with
the keys set at the emission site.  No emission site overrides a basic-data
key, so the two parts are kept separate. -/
structure Record where
  basic : BasicData
  fields : DetailFields
deriving DecidableEq

/-- JavaScript `a || b` for a value that is `null`/`undefined` or a string:
a non-empty string is truthy. -/
def jsOrStr (a : Option String) (b : String) : String :=
  match a with
  | none => b
  | some v => if v = "" then b else v

/-- JavaScript truthiness of a nullable string. -/
def truthyS : Option String → Bool
  | none => false
  | some v => v != ""

/-! ## `index.js` variant: card/payment extraction retry loop

The loop `while (!cardData && !paymentData && retries < 3)` runs three
`page.evaluate` calls per iteration (card data, payment data when no card
data, and the side fields "Remaining amount to charge" / "Amount to refund").
The environment supplies, for each iteration, what each evaluate returns or
that it throws; the list of iterations acts as fuel, and `none` as the result
of the loop means that the supplied iterations were exhausted with the guard
still true (the loop is still running). -/

inductive EvalRes (α : Type) where
  | throwE : EvalRes α
  | ret : α → EvalRes α
deriving DecidableEq

structure CardDataX where
  cardNumber : String
  expiryDate : String
  cvv : String
deriving DecidableEq

structure PayDataX where
  totalGuestPayment : String
  expediaCompensation : String
  totalPayout : String
deriving DecidableEq

/-- DOM texts read by one iteration of the retry loop of `index.js`:
the three card texts, the three payment texts, and the two side-field texts.
`throwE` means the corresponding `page.evaluate` throws. -/
structure IterEnvX where
  cardDom : EvalRes (String × String × String)
  payDom : EvalRes (String × String × String)
  addlDom : EvalRes (String × String)
deriving DecidableEq

structure LoopStateX where
  card : Option CardDataX
  pay : Option PayDataX
  remaining : Option String
  refund : Option String
  retries : Nat
deriving DecidableEq

/-- The card-data evaluate of `index.js`: returns an object only when the
card number text is truthy, else `null`. -/
def cardEvalX (cn ed cv : String) : Option CardDataX :=
  if cn = "" then none else some ⟨cn, ed, cv⟩

/-- The payment-data evaluate of `index.js`: returns an object only when the
"Total guest payment" text is truthy, else `null`. -/
def payEvalX (tgp ec tp : String) : Option PayDataX :=
  if tgp = "" then none else some ⟨tgp, ec, tp⟩

/-- The side-field evaluate and its assignment to the loop variables; on a
throw the catch block increments `retries`. -/
def addlStepX : EvalRes (String × String) → LoopStateX → LoopStateX
  | .throwE, s => { s with retries := s.retries + 1 }
  | .ret (r, f), s => { s with remaining := some r, refund := some f }

/-- One iteration of the retry loop body of `index.js`.  `cardData` is
assigned first; the payment evaluate runs only when it is `null`; the
side-field evaluate always runs; any throw is caught and `retries` is
incremented (`retries` is incremented nowhere else). -/
def iterX (it : IterEnvX) (s : LoopStateX) : LoopStateX :=
  match it.cardDom with
  | .throwE => { s with retries := s.retries + 1 }
  | .ret (cn, ed, cv) =>
      let c := cardEvalX cn ed cv
      let s1 := { s with card := c }
      match c with
      | some _ => addlStepX it.addlDom s1
      | none =>
          match it.payDom with
          | .throwE => { s1 with retries := s1.retries + 1 }
          | .ret (tgp, ec, tp) =>
              addlStepX it.addlDom { s1 with pay := payEvalX tgp ec tp }

/-- Guard of the retry loop of `index.js`:
`!cardData && !paymentData && retries < 3`. -/
def loopCondX (s : LoopStateX) : Bool :=
  s.card.isNone && s.pay.isNone && decide (s.retries < 3)

/-- State of the loop variables before the retry loop of `index.js`. -/
def loopInitX : LoopStateX := ⟨none, none, none, none, 0⟩

/-- The retry loop of `index.js`, driven by the environment iterations as
fuel; `none` means the iterations ran out with the guard still true. -/
def runLoopX (its : List IterEnvX) (s : LoopStateX) : Option LoopStateX :=
  if loopCondX s = false then some s
  else
    match its with
    | [] => none
    | it :: rest => runLoopX rest (iterX it s)

/-- Keys set by the normal-path push of `index.js` (the spreads
`...(cardData || {})` and `...(paymentData || {})` followed by the explicit
keys; `remainingAmountToCharge` and `amountToRefund` are defaulted with
`|| "N/A"`, `amountToChargeOrRefund` is
`remainingAmountToCharge || amountToRefund || "N/A"`, and `reasonOfCharge`
is the corresponding conditional). -/
def normalFieldsX (s : LoopStateX) : DetailFields :=
  { noFields with
    cardNumber := s.card.map (·.cardNumber)
    expiryDate := s.card.map (·.expiryDate)
    cvv := s.card.map (·.cvv)
    totalGuestPayment := s.pay.map (·.totalGuestPayment)
    expediaCompensation := s.pay.map (·.expediaCompensation)
    totalPayout := s.pay.map (·.totalPayout)
    hasCardInfo := some s.card.isSome
    hasPaymentInfo := some s.pay.isSome
    remainingAmountToCharge := some (jsOrStr s.remaining "N/A")
    amountToRefund := some (jsOrStr s.refund "N/A")
    amountToChargeOrRefund := some (jsOrStr s.remaining (jsOrStr s.refund "N/A"))
    reasonOfCharge := some
      (if truthyS s.remaining then "Remaining Amount to Charge"
       else if truthyS s.refund then "Amount to Refund" else "N/A") }

/-- The three currency values extracted from a cancellation dialog by the
`getCurrencyValue` evaluate of `index.js`. -/
structure CancelInfo where
  cancellationFee : String
  expediaCompensation : String
  totalPayout : String
deriving DecidableEq

/-- Keys set by the cancelled-reservation push of `index.js`.  The push
happens before the dialog-close strategies run, so a close failure does not
retract the record. -/
def cancelFieldsX (ci : CancelInfo) : DetailFields :=
  { noFields with
    cardNumber := some "N/A"
    expiryDate := some "N/A"
    cvv := some "N/A"
    hasCardInfo := some false
    hasPaymentInfo := some true
    totalGuestPayment := some "0.00"
    cancellationFee := some ci.cancellationFee
    expediaCompensation := some ci.expediaCompensation
    totalPayout := some ci.totalPayout
    amountToChargeOrRefund := some ci.cancellationFee
    reasonOfCharge := some "Cancellation Fee"
    status := some "Cancelled" }

/-- Outcome of the per-row detail phase, shared by both variants.  `skip`
corresponds to a `continue` without a push (dialog timeout, or a failed
cancellation extraction); `fail` corresponds to an exception that reaches the
per-row catch block; `emit` corresponds to a push of `basicData` together
with the given keys. -/
inductive DetailResult where
  | skip : DetailResult
  | fail : DetailResult
  | emit : DetailFields → DetailResult
deriving DecidableEq

/-- Environment of the detail phase of one row in the `index.js` variant:
whether clicking the guest-name button throws (for example because `row.$`
returned `null`), whether the dialog appears within the 8-second race,
whether the `isCanceled` evaluate throws and what it returns, the
cancellation extraction result (`none` when its waits or evaluate throw,
in which case the inner catch continues without a push), whether the
scroll evaluate throws, and the retry-loop iterations. -/
structure DialogEnvX where
  clickThrows : Bool
  dialogAppears : Bool
  cancelCheckThrows : Bool
  isCanceled : Bool
  cancelExtract : Option CancelInfo
  scrollThrows : Bool
  iters : List IterEnvX
deriving DecidableEq

/-- Detail phase of one row in the `index.js` variant.  The result is `none`
when the retry loop never exits (its guard can stay true forever).  Dialog
closing is attempted after the push on every path and cannot change the
emitted records, so it is not part of the environment. -/
def detailX (d : DialogEnvX) : Option DetailResult :=
  if d.clickThrows then some .fail
  else if !d.dialogAppears then some .skip
  else if d.cancelCheckThrows then some .fail
  else if d.isCanceled then
    match d.cancelExtract with
    | none => some .skip
    | some ci => some (.emit (cancelFieldsX ci))
  else if d.scrollThrows then some .fail
  else
    match runLoopX d.iters loopInitX with
    | none => none
    | some s => some (.emit (normalFieldsX s))

/-! ## `part_000` variant: card/payment extraction retry loop

The loop `while (retries < 3)` first checks for an `.evcCardBase` element
(updating the `status` variable from its badge), reads the card data when it
exists, then always reads the payment summary, then the side fields, and
breaks when either card data or payment data is present; otherwise it
increments `retries`.  Any throw is caught and increments `retries`. -/

structure CardDataV2 where
  cardNumber : String
  expiryDate : String
  cvv : String
  additionalText : String
deriving DecidableEq

structure PayDataV2 where
  totalGuestPayment : String
  cancellationFee : String
  expediaCompensation : String
  totalPayout : String
deriving DecidableEq

/-- One iteration environment for the `part_000` retry loop.
`evcDom` is the `.evcCardBase` probe: `ret none` means the element is absent,
`ret (some b)` that it exists with badge text `b` (`b = none` when the status
badge is missing).  `cardDom` carries the card texts together with the joined
additional text; it is consulted only when the element exists.  `payDom` is
`ret none` when `.fds-card-content` is absent, else the four looked-up
currency texts (cancellation fee, Expedia compensation, total payout, total
guest payment, each `""` when its title is missing). -/
structure IterEnvV2 where
  evcDom : EvalRes (Option (Option String))
  cardDom : EvalRes (String × String × String × String)
  payDom : EvalRes (Option (String × String × String × String))
  addlDom : EvalRes (String × String)
deriving DecidableEq

structure LoopStateV2 where
  card : Option CardDataV2
  pay : Option PayDataV2
  remaining : Option String
  refund : Option String
  status : String
  retries : Nat
deriving DecidableEq

/-- Badge handling of the evcCard probe:
`statusBadge ? statusBadge.textContent.trim() : "None"`.  The `status` field
of the object returned by the card evaluate itself is always overridden by
the later `status:` key of the push and is therefore not modelled. -/
def badgeStatus : Option String → String
  | none => "None"
  | some b => b

/-- The card-data evaluate of `part_000`: an object only when the card number
text is truthy. -/
def cardEvalV2 (cn ed cv adt : String) : Option CardDataV2 :=
  if cn = "" then none else some ⟨cn, ed, cv, adt⟩

/-- The payment-summary evaluate of `part_000`: `null` when the summary
element is absent or none of fee, compensation and payout is truthy. -/
def payEvalV2 : Option (String × String × String × String) → Option PayDataV2
  | none => none
  | some (fee, ec, tp, tgp) =>
      if fee = "" && ec = "" && tp = "" then none else some ⟨tgp, fee, ec, tp⟩

/-- Payment, side-field and break phase of one `part_000` loop iteration,
returning the new state and whether the loop breaks. -/
def payPhaseV2 (it : IterEnvV2) (s : LoopStateV2) : LoopStateV2 × Bool :=
  match it.payDom with
  | .throwE => ({ s with retries := s.retries + 1 }, false)
  | .ret p =>
      let s1 := { s with pay := payEvalV2 p }
      match it.addlDom with
      | .throwE => ({ s1 with retries := s1.retries + 1 }, false)
      | .ret (r, f) =>
          let s2 := { s1 with remaining := some r, refund := some f }
          if s2.card.isSome || s2.pay.isSome then (s2, true)
          else ({ s2 with retries := s2.retries + 1 }, false)

/-- One iteration of the `part_000` retry loop body. -/
def iterV2 (it : IterEnvV2) (s : LoopStateV2) : LoopStateV2 × Bool :=
  match it.evcDom with
  | .throwE => ({ s with retries := s.retries + 1 }, false)
  | .ret none => payPhaseV2 it s
  | .ret (some badge) =>
      let s1 := { s with status := badgeStatus badge }
      match it.cardDom with
      | .throwE => ({ s1 with retries := s1.retries + 1 }, false)
      | .ret (cn, ed, cv, adt) => payPhaseV2 it { s1 with card := cardEvalV2 cn ed cv adt }

/-- State of the loop variables before the `part_000` retry loop
(`status` starts as the string `"None"`). -/
def loopInitV2 : LoopStateV2 := ⟨none, none, none, none, "None", 0⟩

/-- The retry loop of `part_000` (`while (retries < 3)`), with the iteration
environments as fuel. -/
def runLoopV2 (its : List IterEnvV2) (s : LoopStateV2) : Option LoopStateV2 :=
  if 3 ≤ s.retries then some s
  else
    match its with
    | [] => none
    | it :: rest =>
        match iterV2 it s with
        | (s1, true) => some s1
        | (s1, false) => runLoopV2 rest s1

/-- Keys set by the push of `part_000`: the two spreads, the property keys,
the flags, the defaulted side fields,
`amountToChargeOrRefund = cardData?.additionalText || remainingAmountToCharge
|| amountToRefund || "N/A"`, the `status` variable (which overrides the
spread card status), and `amount` from the card-activity tab scrape.
No `reasonOfCharge` key exists in this variant. -/
def normalFieldsV2 (propertyId propertyName propertyInfo remainingBalance : String)
    (s : LoopStateV2) : DetailFields :=
  { noFields with
    cardNumber := s.card.map (·.cardNumber)
    expiryDate := s.card.map (·.expiryDate)
    cvv := s.card.map (·.cvv)
    additionalText := s.card.map (·.additionalText)
    totalGuestPayment := s.pay.map (·.totalGuestPayment)
    cancellationFee := s.pay.map (·.cancellationFee)
    expediaCompensation := s.pay.map (·.expediaCompensation)
    totalPayout := s.pay.map (·.totalPayout)
    propertyId := some propertyId
    propertyName := some (jsOrStr (some propertyInfo) propertyName)
    hasCardInfo := some s.card.isSome
    hasPaymentInfo := some s.pay.isSome
    remainingAmountToCharge := some (jsOrStr s.remaining "N/A")
    amountToRefund := some (jsOrStr s.refund "N/A")
    amountToChargeOrRefund := some
      (jsOrStr (s.card.map (·.additionalText))
        (jsOrStr s.remaining (jsOrStr s.refund "N/A")))
    status := some s.status
    amount := some remainingBalance }

/-- Environment of the detail phase of one row in the `part_000` variant.
`dialogTitleCancelled` records whether the dialog title contains
"Cancelled"/"Canceled"; this variant never inspects the title, the field is
part of the environment only.  The card-activity tab lookup is wrapped in its
own try/catch and can only influence `remainingBalance`; the header
property-name evaluate result is `propertyInfo`, and `propertyInfoThrows`
covers a throw of that unprotected evaluate. -/
structure DialogEnvV2 where
  clickThrows : Bool
  dialogAppears : Bool
  dialogTitleCancelled : Bool
  scrollThrows : Bool
  remainingBalance : String
  iters : List IterEnvV2
  propertyInfoThrows : Bool
  propertyInfo : String
deriving DecidableEq

/-- Detail phase of one row in the `part_000` variant: no cancellation
branch exists; every row that survives the dialog wait goes through the
extraction loop and the generic push. -/
def detailV2 (propertyId propertyName : String) (d : DialogEnvV2) :
    Option DetailResult :=
  if d.clickThrows then some .fail
  else if !d.dialogAppears then some .skip
  else if d.scrollThrows then some .fail
  else
    match runLoopV2 d.iters loopInitV2 with
    | none => none
    | some s =>
        if d.propertyInfoThrows then some .fail
        else some (.emit (normalFieldsV2 propertyId propertyName
          d.propertyInfo d.remainingBalance s))

/-! ## Session interpreter for `processReservationsPage`

The row loop, the dedup set, the per-row catch, the page loop and the
reload-and-retry policy are identical in both variants; they are defined once
over an abstract detail phase `δ` and instantiated with `detailX` and
`detailV2`.  The browser environment for one `while (hasMore)` iteration is a
`PageView`: whether the table wait throws, the rows (each with its basic data
and its detail environment, or a throwing basic-data evaluate), what
`hasNextPage` returns or that it throws, whether the next click throws, and
whether `page.reload` throws when this iteration has to recover from an
error.  `none` as the interpreter result means the view list was exhausted
with the loop still wanting to continue (or an extraction loop never
exited); `some out` is the value actually returned by
`processReservationsPage`. -/

inductive RowEnv (δ : Type) where
  | basicFail : RowEnv δ
  | ok : BasicData → δ → RowEnv δ

structure PageView (δ : Type) where
  loadFail : Bool
  rows : List (RowEnv δ)
  nextEvalFails : Bool
  next : Bool
  nextClickFails : Bool
  reloadFails : Bool

/-- `pageReservations` and `processedReservationIds` of one invocation. -/
structure SessState where
  records : List Record
  seen : List String
deriving DecidableEq

/-- Processing of one table row.  The reservation id is checked against and
added to the dedup set before the guest-name button is clicked.  An exception
reaching the per-row catch block is a page-level error: the catch block reads
the `basicData` constant, which is block-scoped to the `try` block, so the
read itself throws a ReferenceError and the intended degraded-record push is
never executed.  The mutations already performed (the add to the dedup set
and the pushes of earlier rows) survive the exception, so the error carries
the current state. -/
def processRowG {δ : Type} (detail : δ → Option DetailResult) (s : SessState) :
    RowEnv δ → Option (Except SessState SessState)
  | .basicFail => some (.error s)
  | .ok b d =>
      if b.reservationId ∈ s.seen then some (.ok s)
      else
        let s1 : SessState := ⟨s.records, b.reservationId :: s.seen⟩
        match detail d with
        | none => none
        | some .skip => some (.ok s1)
        | some .fail => some (.error s1)
        | some (.emit f) => some (.ok ⟨s1.records ++ [⟨b, f⟩], s1.seen⟩)

/-- The `for (const row of rows)` loop; an error aborts the remaining rows of
the page and propagates to the page-level catch, keeping the mutations made
so far. -/
def processRowsG {δ : Type} (detail : δ → Option DetailResult) :
    List (RowEnv δ) → SessState → Option (Except SessState SessState)
  | [], s => some (.ok s)
  | r :: rs, s =>
      match processRowG detail s r with
      | none => none
      | some (.error s1) => some (.error s1)
      | some (.ok s1) => processRowsG detail rs s1

/-- The `while (hasMore)` loop.  A page-level error runs `page.reload` and
retries with the next view; if the reload itself throws, the error escapes to
the outer catch of `processReservationsPage`, which returns `[]`.  When
`hasNextPage` reports no next page the loop ends and `pageReservations` is
returned. -/
def runPagesG {δ : Type} (detail : δ → Option DetailResult) :
    List (PageView δ) → SessState → Bool → Option (List Record)
  | _, s, false => some s.records
  | [], _, true => none
  | v :: vs, s, true =>
      if v.loadFail then
        (if v.reloadFails then some [] else runPagesG detail vs s true)
      else
        match processRowsG detail v.rows s with
        | none => none
        | some (.error s1) =>
            if v.reloadFails then some [] else runPagesG detail vs s1 true
        | some (.ok s1) =>
            if v.nextEvalFails then
              (if v.reloadFails then some [] else runPagesG detail vs s1 true)
            else if v.next then
              (if v.nextClickFails then
                (if v.reloadFails then some [] else runPagesG detail vs s1 true)
               else runPagesG detail vs s1 true)
            else some s1.records

/-- Environment of the part of `processReservationsPage` before the page
loop: a throwing search setup (layout wait, search input probing, save
button) reaches the outer catch and returns `[]`; a `finalCount` of zero
returns `[]`; `preLoopFails` covers a throw of the table wait or of
`getTotalResults` after the count check. -/
structure PreEnv where
  setupFails : Bool
  finalCount : Nat
  preLoopFails : Bool
deriving DecidableEq

/-- `processReservationsPage` over an abstract detail phase. -/
def processReservationsPageG {δ : Type} (detail : δ → Option DetailResult)
    (pre : PreEnv) (views : List (PageView δ)) : Option (List Record) :=
  if pre.setupFails then some []
  else if pre.finalCount = 0 then some []
  else if pre.preLoopFails then some []
  else runPagesG detail views ⟨[], []⟩ true

/-- `processReservationsPage` of `src/index.js`. -/
def processReservationsPageX (pre : PreEnv) (views : List (PageView DialogEnvX)) :
    Option (List Record) :=
  processReservationsPageG detailX pre views

/-- `processReservationsPage` of `src/unnamed/part_000` (the extra
`propertyId`/`propertyName` function parameters feed the pushed records). -/
def processReservationsPageV2 (propertyId propertyName : String) (pre : PreEnv)
    (views : List (PageView DialogEnvV2)) : Option (List Record) :=
  processReservationsPageG (detailV2 propertyId propertyName) pre views

/-! ## Spreadsheet export

`loginToExpediaPartner` writes one workbook at the end of a run, only when
`allReservations.length > 0`; the sheet data is one fixed header row followed
by one row per record.  The model returns the sheet rows, `none` when no file
is written. -/

/-- JavaScript `x || "N/A"` over a possibly missing record key. -/
def orNA : Option String → String
  | none => "N/A"
  | some v => if v = "" then "N/A" else v

/-- JavaScript `x ? "Yes" : "No"` over a possibly missing boolean key. -/
def yesNo : Option Bool → String
  | some true => "Yes"
  | _ => "No"

/-- JavaScript `res.status || "Active"`. -/
def statusOrActive : Option String → String
  | none => "Active"
  | some v => if v = "" then "Active" else v

/-- Header row of the `index.js` export. -/
def headerRowX : List String :=
  ["Guest Name", "Reservation ID", "Confirmation Code", "Check-in Date",
   "Check-out Date", "Room Type", "Booking Amount", "Booked Date",
   "Card Number", "Expiry Date", "CVV", "Has Card Info", "Has Payment Info",
   "Total Guest Payment", "Cancellation Fee", "Expedia Compensation",
   "Total Payout", "Amount to charge/refund", "Reason of charge", "Status"]

/-- Mapping of one record to an export row in `index.js`. -/
def recordToRowX (r : Record) : List String :=
  [r.basic.guestName, r.basic.reservationId, r.basic.confirmationCode,
   r.basic.checkInDate, r.basic.checkOutDate, r.basic.roomType,
   r.basic.bookingAmount, r.basic.bookedDate,
   orNA r.fields.cardNumber, orNA r.fields.expiryDate, orNA r.fields.cvv,
   yesNo r.fields.hasCardInfo, yesNo r.fields.hasPaymentInfo,
   orNA r.fields.totalGuestPayment, orNA r.fields.cancellationFee,
   orNA r.fields.expediaCompensation, orNA r.fields.totalPayout,
   orNA r.fields.amountToChargeOrRefund, orNA r.fields.reasonOfCharge,
   statusOrActive r.fields.status]

/-- The export step of `index.js`: no file for an empty run result, else one
file whose sheet is the header row plus one row per record. -/
def exportReservationsX (rs : List Record) : Option (List (List String)) :=
  if 0 < rs.length then some (headerRowX :: rs.map recordToRowX) else none

/-- Header row of the `part_000` export (note that the "Details" column
receives `amountToChargeOrRefund` and the "Amount to charge/refund" column
receives the card-activity `amount`). -/
def headerRowV2 : List String :=
  ["Property ID", "Property Name", "Guest Name", "Reservation ID",
   "Confirmation Code", "Check-in Date", "Check-out Date", "Room Type",
   "Booking Amount", "Booked Date", "Card Number", "Expiry Date", "CVV",
   "Has Card Info", "Has Payment Info", "Total Guest Payment",
   "Cancellation Fee", "Expedia Compensation", "Total Payout", "Details",
   "Status", "Amount to charge/refund"]

/-- Mapping of one record to an export row in `part_000`. -/
def recordToRowV2 (r : Record) : List String :=
  [orNA r.fields.propertyId, orNA r.fields.propertyName,
   r.basic.guestName, r.basic.reservationId, r.basic.confirmationCode,
   r.basic.checkInDate, r.basic.checkOutDate, r.basic.roomType,
   r.basic.bookingAmount, r.basic.bookedDate,
   orNA r.fields.cardNumber, orNA r.fields.expiryDate, orNA r.fields.cvv,
   yesNo r.fields.hasCardInfo, yesNo r.fields.hasPaymentInfo,
   orNA r.fields.totalGuestPayment, orNA r.fields.cancellationFee,
   orNA r.fields.expediaCompensation, orNA r.fields.totalPayout,
   orNA r.fields.amountToChargeOrRefund, statusOrActive r.fields.status,
   orNA r.fields.amount]

/-- The export step of `part_000`. -/
def exportReservationsV2 (rs : List Record) : Option (List (List String)) :=
  if 0 < rs.length then some (headerRowV2 :: rs.map recordToRowV2) else none

/-- Reservation ids of a record list, in emission order. -/
def recIds (rs : List Record) : List String :=
  rs.map fun r => r.basic.reservationId

/-- Invariant of the session state: emitted ids are pairwise distinct and
every emitted id is in the dedup set. -/
def SessInv (s : SessState) : Prop :=
  (recIds s.records).Nodup ∧ ∀ x ∈ recIds s.records, x ∈ s.seen

/-- State carried by a row-loop outcome: a page-level error keeps the
mutations made before the exception. -/
def exceptState : Except SessState SessState → SessState
  | .ok s => s
  | .error s => s

lemma processRowG_state {δ : Type} (detail : δ → Option DetailResult)
    (s : SessState) (r : RowEnv δ) (res : Except SessState SessState)
    (h : processRowG detail s r = some res) :
    (∀ x, x ∈ s.seen → x ∈ (exceptState res).seen) ∧
    (∀ x, x ∈ s.seen → x ∉ recIds s.records → x ∉ recIds (exceptState res).records) ∧
    (SessInv s → SessInv (exceptState res)) := by
  cases r with
  | basicFail =>
      simp only [processRowG, Option.some.injEq] at h
      subst h
      exact ⟨fun x hx => hx, fun x _ hnx => hnx, fun hv => hv⟩
  | ok b d =>
      by_cases hmem : b.reservationId ∈ s.seen
      · simp only [processRowG, if_pos hmem, Option.some.injEq] at h
        subst h
        exact ⟨fun x hx => hx, fun x _ hnx => hnx, fun hv => hv⟩
      · cases hd : detail d with
        | none => simp [processRowG, if_neg hmem, hd] at h
        | some dr =>
            cases dr with
            | skip =>
                simp only [processRowG, if_neg hmem, hd, Option.some.injEq] at h
                subst h
                refine ⟨fun x hx => List.mem_cons_of_mem _ hx,
                  fun x _ hnx => hnx, fun hv => ⟨hv.1, fun x hx =>
                    List.mem_cons_of_mem _ (hv.2 x hx)⟩⟩
            | fail =>
                simp only [processRowG, if_neg hmem, hd, Option.some.injEq] at h
                subst h
                refine ⟨fun x hx => List.mem_cons_of_mem _ hx,
                  fun x _ hnx => hnx, fun hv => ⟨hv.1, fun x hx =>
                    List.mem_cons_of_mem _ (hv.2 x hx)⟩⟩
            | emit f =>
                simp only [processRowG, if_neg hmem, hd, Option.some.injEq] at h
                subst h
                have hids : recIds (s.records ++ [⟨b, f⟩]) =
                    recIds s.records ++ [b.reservationId] := by
                  simp [recIds]
                refine ⟨fun x hx => List.mem_cons_of_mem _ hx, ?_, ?_⟩
                · intro x hx hnx
                  show x ∉ recIds (s.records ++ [⟨b, f⟩])
                  rw [hids]
                  intro hc
                  rcases List.mem_append.mp hc with hc | hc
                  · exact hnx hc
                  · exact hmem (List.mem_singleton.mp hc ▸ hx)
                · rintro ⟨hnd, hsub⟩
                  constructor
                  · show (recIds (s.records ++ [⟨b, f⟩])).Nodup
                    rw [hids]
                    have hbnot : b.reservationId ∉ recIds s.records :=
                      fun hc => hmem (hsub _ hc)
                    simp [List.nodup_append, hnd, hbnot]
                  · intro x hx
                    rw [show exceptState (Except.ok (⟨s.records ++ [⟨b, f⟩],
                        b.reservationId :: s.seen⟩ : SessState)) =
                        ⟨s.records ++ [⟨b, f⟩], b.reservationId :: s.seen⟩ from rfl,
                      hids] at hx
                    rcases List.mem_append.mp hx with hx | hx
                    · exact List.mem_cons_of_mem _ (hsub x hx)
                    · exact List.mem_singleton.mp hx ▸ List.mem_cons_self _ _

lemma processRowsG_state {δ : Type} (detail : δ → Option DetailResult) :
    ∀ (rows : List (RowEnv δ)) (s : SessState) (res : Except SessState SessState),
    processRowsG detail rows s = some res →
    (∀ x, x ∈ s.seen → x ∈ (exceptState res).seen) ∧
    (∀ x, x ∈ s.seen → x ∉ recIds s.records → x ∉ recIds (exceptState res).records) ∧
    (SessInv s → SessInv (exceptState res)) := by
  intro rows
  induction rows with
  | nil =>
      intro s res h
      simp only [processRowsG, Option.some.injEq] at h
      subst h
      exact ⟨fun x hx => hx, fun x _ hnx => hnx, fun hv => hv⟩
  | cons r rs ih =>
      intro s res h
      cases hr : processRowG detail s r with
      | none => rw [processRowsG, hr] at h; cases h
      | some r0 =>
          cases r0 with
          | error s1 =>
              rw [processRowsG, hr] at h
              have hres : res = .error s1 := (Option.some.inj h).symm
              subst hres
              exact processRowG_state detail s r (.error s1) hr
          | ok s1 =>
              rw [processRowsG, hr] at h
              obtain ⟨m1, p1, i1⟩ := processRowG_state detail s r (.ok s1) hr
              obtain ⟨m2, p2, i2⟩ := ih s1 res h
              exact ⟨fun x hx => m2 x (m1 x hx),
                fun x hx hnx => p2 x (m1 x hx) (p1 x hx hnx),
                fun hv => i2 (i1 hv)⟩

lemma runPagesG_nodup {δ : Type} (detail : δ → Option DetailResult) :
    ∀ (vs : List (PageView δ)) (s : SessState) (b : Bool) (out : List Record),
    SessInv s → runPagesG detail vs s b = some out → (recIds out).Nodup := by
  intro vs
  induction vs with
  | nil =>
      intro s b out hinv h
      cases b with
      | false =>
          simp only [runPagesG, Option.some.injEq] at h
          exact h ▸ hinv.1
      | true => cases h
  | cons v vs ih =>
      intro s b out hinv h
      cases b with
      | false =>
          simp only [runPagesG, Option.some.injEq] at h
          exact h ▸ hinv.1
      | true =>
          rw [runPagesG] at h
          by_cases hl : v.loadFail
          · rw [if_pos hl] at h
            by_cases hrl : v.reloadFails
            · rw [if_pos hrl] at h
              obtain rfl : ([] : List Record) = out := Option.some.inj h
              simp [recIds]
            · rw [if_neg hrl] at h
              exact ih s true out hinv h
          · rw [if_neg hl] at h
            split at h
            · exact Option.noConfusion h
            · next s1 hrows =>
                have hinv1 : SessInv s1 :=
                  (processRowsG_state detail v.rows s (.error s1) hrows).2.2 hinv
                by_cases hrl : v.reloadFails
                · rw [if_pos hrl] at h
                  obtain rfl : ([] : List Record) = out := Option.some.inj h
                  simp [recIds]
                · rw [if_neg hrl] at h
                  exact ih s1 true out hinv1 h
            · next s1 hrows =>
                have hinv1 : SessInv s1 :=
                  (processRowsG_state detail v.rows s (.ok s1) hrows).2.2 hinv
                by_cases hne : v.nextEvalFails
                · rw [if_pos hne] at h
                  by_cases hrl : v.reloadFails
                  · rw [if_pos hrl] at h
                    obtain rfl : ([] : List Record) = out := Option.some.inj h
                    simp [recIds]
                  · rw [if_neg hrl] at h
                    exact ih s1 true out hinv1 h
                · rw [if_neg hne] at h
                  by_cases hnx : v.next
                  · rw [if_pos hnx] at h
                    by_cases hnc : v.nextClickFails
                    · rw [if_pos hnc] at h
                      by_cases hrl : v.reloadFails
                      · rw [if_pos hrl] at h
                        obtain rfl : ([] : List Record) = out := Option.some.inj h
                        simp [recIds]
                      · rw [if_neg hrl] at h
                        exact ih s1 true out hinv1 h
                    · rw [if_neg hnc] at h
                      exact ih s1 true out hinv1 h
                  · rw [if_neg hnx] at h
                    exact Option.some.inj h ▸ hinv1.1

lemma runPagesG_frozen {δ : Type} (detail : δ → Option DetailResult) (x : String) :
    ∀ (vs : List (PageView δ)) (s : SessState) (b : Bool) (out : List Record),
    x ∈ s.seen → x ∉ recIds s.records →
    runPagesG detail vs s b = some out → x ∉ recIds out := by
  intro vs
  induction vs with
  | nil =>
      intro s b out hseen hnot h
      cases b with
      | false =>
          simp only [runPagesG, Option.some.injEq] at h
          exact h ▸ hnot
      | true => cases h
  | cons v vs ih =>
      intro s b out hseen hnot h
      cases b with
      | false =>
          simp only [runPagesG, Option.some.injEq] at h
          exact h ▸ hnot
      | true =>
          rw [runPagesG] at h
          by_cases hl : v.loadFail
          · rw [if_pos hl] at h
            by_cases hrl : v.reloadFails
            · rw [if_pos hrl] at h
              obtain rfl : ([] : List Record) = out := Option.some.inj h
              simp [recIds]
            · rw [if_neg hrl] at h
              exact ih s true out hseen hnot h
          · rw [if_neg hl] at h
            split at h
            · exact Option.noConfusion h
            · next s1 hrows =>
                obtain ⟨m1, p1, _⟩ :=
                  processRowsG_state detail v.rows s (.error s1) hrows
                by_cases hrl : v.reloadFails
                · rw [if_pos hrl] at h
                  obtain rfl : ([] : List Record) = out := Option.some.inj h
                  simp [recIds]
                · rw [if_neg hrl] at h
                  exact ih s1 true out (m1 x hseen) (p1 x hseen hnot) h
            · next s1 hrows =>
                obtain ⟨m1, p1, _⟩ :=
                  processRowsG_state detail v.rows s (.ok s1) hrows
                have hseen1 : x ∈ s1.seen := m1 x hseen
                have hnot1 : x ∉ recIds s1.records := p1 x hseen hnot
                by_cases hne : v.nextEvalFails
                · rw [if_pos hne] at h
                  by_cases hrl : v.reloadFails
                  · rw [if_pos hrl] at h
                    obtain rfl : ([] : List Record) = out := Option.some.inj h
                    simp [recIds]
                  · rw [if_neg hrl] at h
                    exact ih s1 true out hseen1 hnot1 h
                · rw [if_neg hne] at h
                  by_cases hnx : v.next
                  · rw [if_pos hnx] at h
                    by_cases hnc : v.nextClickFails
                    · rw [if_pos hnc] at h
                      by_cases hrl : v.reloadFails
                      · rw [if_pos hrl] at h
                        obtain rfl : ([] : List Record) = out := Option.some.inj h
                        simp [recIds]
                      · rw [if_neg hrl] at h
                        exact ih s1 true out hseen1 hnot1 h
                    · rw [if_neg hnc] at h
                      exact ih s1 true out hseen1 hnot1 h
                  · rw [if_neg hnx] at h
                    exact Option.some.inj h ▸ hnot1

/-- Dedup of a whole invocation, generic in the detail phase. -/
lemma processReservationsPageG_nodup {δ : Type} (detail : δ → Option DetailResult)
    (pre : PreEnv) (views : List (PageView δ)) (out : List Record)
    (h : processReservationsPageG detail pre views = some out) :
    (recIds out).Nodup := by
  unfold processReservationsPageG at h
  by_cases h1 : pre.setupFails
  · rw [if_pos h1] at h
    obtain rfl : ([] : List Record) = out := Option.some.inj h
    simp [recIds]
  · rw [if_neg h1] at h
    by_cases h2 : pre.finalCount = 0
    · rw [if_pos h2] at h
      obtain rfl : ([] : List Record) = out := Option.some.inj h
      simp [recIds]
    · rw [if_neg h2] at h
      by_cases h3 : pre.preLoopFails
      · rw [if_pos h3] at h
        obtain rfl : ([] : List Record) = out := Option.some.inj h
        simp [recIds]
      · rw [if_neg h3] at h
        exact runPagesG_nodup detail views ⟨[], []⟩ true out
          ⟨List.nodup_nil, by simp [recIds]⟩ h

lemma addlStepX_card (e : EvalRes (String × String)) (s : LoopStateX) :
    (addlStepX e s).card = s.card := by
  cases e with
  | throwE => rfl
  | ret rf => obtain ⟨r, f⟩ := rf; rfl

lemma addlStepX_pay (e : EvalRes (String × String)) (s : LoopStateX) :
    (addlStepX e s).pay = s.pay := by
  cases e with
  | throwE => rfl
  | ret rf => obtain ⟨r, f⟩ := rf; rfl

/-- One iteration of the `index.js` retry loop never leaves both `cardData`
and `paymentData` set when it started with both null: the payment evaluate
runs only when the card evaluate returned null in the same iteration. -/
lemma iterX_card_pay (it : IterEnvX) (s0 : LoopStateX)
    (h1 : s0.card = none) (h2 : s0.pay = none) :
    (iterX it s0).card = none ∨ (iterX it s0).pay = none := by
  unfold iterX
  cases it.cardDom with
  | throwE => exact Or.inl h1
  | ret t =>
      obtain ⟨cn, ed, cv⟩ := t
      dsimp only
      cases hc : cardEvalX cn ed cv with
      | some c =>
          right
          rw [addlStepX_pay]
          exact h2
      | none =>
          cases it.payDom with
          | throwE => exact Or.inl rfl
          | ret t2 =>
              obtain ⟨tgp, ec, tp⟩ := t2
              left
              rw [addlStepX_card]

lemma runLoopX_not_both :
    ∀ (its : List IterEnvX) (s0 : LoopStateX), s0.card = none → s0.pay = none →
    ∀ s, runLoopX its s0 = some s → s.card = none ∨ s.pay = none := by
  intro its
  induction its with
  | nil =>
      intro s0 h1 h2 s h
      rw [runLoopX.eq_def] at h
      by_cases hc : loopCondX s0 = false
      · rw [if_pos hc] at h
        exact Option.some.inj h ▸ Or.inl h1
      · rw [if_neg hc] at h
        exact Option.noConfusion h
  | cons it rest ih =>
      intro s0 h1 h2 s h
      rw [runLoopX.eq_def] at h
      by_cases hc : loopCondX s0 = false
      · rw [if_pos hc] at h
        exact Option.some.inj h ▸ Or.inl h1
      · rw [if_neg hc] at h
        have hrec : runLoopX rest (iterX it s0) = some s := h
        have hnb := iterX_card_pay it s0 h1 h2
        by_cases hb : (iterX it s0).card = none ∧ (iterX it s0).pay = none
        · exact ih (iterX it s0) hb.1 hb.2 s hrec
        · have hcf : loopCondX (iterX it s0) = false := by
            unfold loopCondX
            by_cases hx : (iterX it s0).card = none
            · by_cases hy : (iterX it s0).pay = none
              · exact absurd ⟨hx, hy⟩ hb
              · simp [Option.isNone_iff_eq_none, hy]
            · simp [Option.isNone_iff_eq_none, hx]
          rw [runLoopX.eq_def, if_pos hcf] at hrec
          exact Option.some.inj hrec ▸ hnb

lemma payPhaseV2_retries (it : IterEnvV2) (s : LoopStateV2) :
    (payPhaseV2 it s).2 = true ∨ (payPhaseV2 it s).1.retries = s.retries + 1 := by
  unfold payPhaseV2
  cases it.payDom with
  | throwE => exact Or.inr rfl
  | ret p =>
      cases it.addlDom with
      | throwE => exact Or.inr rfl
      | ret rf =>
          obtain ⟨r, f⟩ := rf
          dsimp only
          split
          · exact Or.inl rfl
          · exact Or.inr rfl

/-- Every iteration of the `part_000` retry loop either breaks or increments
`retries` (the success path without data and every catch both increment). -/
lemma iterV2_retries (it : IterEnvV2) (s : LoopStateV2) :
    (iterV2 it s).2 = true ∨ (iterV2 it s).1.retries = s.retries + 1 := by
  unfold iterV2
  cases it.evcDom with
  | throwE => exact Or.inr rfl
  | ret evc =>
      cases evc with
      | none => exact payPhaseV2_retries it s
      | some badge =>
          cases it.cardDom with
          | throwE => exact Or.inr rfl
          | ret t =>
              obtain ⟨cn, ed, cv, adt⟩ := t
              exact payPhaseV2_retries it _

/-- The `part_000` retry loop terminates: three iteration environments always
suffice for the loop to exit (by break or by the guard). -/
lemma runLoopV2_isSome :
    ∀ (its : List IterEnvV2) (s : LoopStateV2), 3 ≤ s.retries + its.length →
    (runLoopV2 its s).isSome = true := by
  intro its
  induction its with
  | nil =>
      intro s h
      simp only [List.length_nil, Nat.add_zero] at h
      rw [runLoopV2.eq_def, if_pos h]
      rfl
  | cons it rest ih =>
      intro s h
      by_cases h3 : 3 ≤ s.retries
      · rw [runLoopV2.eq_def, if_pos h3]; rfl
      · rw [runLoopV2.eq_def, if_neg h3]
        dsimp only
        rcases hstep : iterV2 it s with ⟨s1, brk⟩
        rcases iterV2_retries it s with hb | hr
        · rw [hstep] at hb
          subst hb
          simp
        · rw [hstep] at hr
          cases brk with
          | true => simp
          | false =>
              dsimp only
              apply ih
              rw [hr]
              simp only [List.length_cons] at h
              omega

/-! ## Specification-side field resolution (for claim comparison) -/

/-- A nullable extracted string with `null` read as the empty string (both
are falsy in JavaScript). -/
def orEmpty (o : Option String) : String := o.getD ""

/-- Resolution of `amountToChargeOrRefund` as the specification words it:
the remaining amount when non-empty, else the refund amount when non-empty,
else "N/A". -/
def specAmountResolution (remaining refund : String) : String :=
  if remaining ≠ "" then remaining
  else if refund ≠ "" then refund
  else "N/A"

/-- The corresponding `reasonOfCharge` resolution of the specification. -/
def specReasonResolution (remaining refund : String) : String :=
  if remaining ≠ "" then "Remaining Amount to Charge"
  else if refund ≠ "" then "Amount to Refund"
  else "N/A"

lemma jsOrStr_eq (a : Option String) (b : String) :
    jsOrStr a b = if orEmpty a = "" then b else orEmpty a := by
  cases a with
  | none => simp [jsOrStr, orEmpty]
  | some v => by_cases hv : v = "" <;> simp [jsOrStr, orEmpty, hv]

lemma jsOr_amount (a b : Option String) :
    jsOrStr a (jsOrStr b "N/A") = specAmountResolution (orEmpty a) (orEmpty b) := by
  rw [jsOrStr_eq, jsOrStr_eq]
  unfold specAmountResolution
  by_cases h1 : orEmpty a = "" <;> by_cases h2 : orEmpty b = "" <;> simp [h1, h2]

lemma reason_spec (a b : Option String) :
    (if truthyS a then "Remaining Amount to Charge"
     else if truthyS b then "Amount to Refund" else "N/A") =
      specReasonResolution (orEmpty a) (orEmpty b) := by
  have ha : truthyS a = decide (orEmpty a ≠ "") := by
    cases a with
    | none => rfl
    | some v => by_cases hv : v = "" <;> simp [truthyS, orEmpty, hv]
  have hb : truthyS b = decide (orEmpty b ≠ "") := by
    cases b with
    | none => rfl
    | some v => by_cases hv : v = "" <;> simp [truthyS, orEmpty, hv]
  unfold specReasonResolution
  by_cases h1 : orEmpty a = "" <;> by_cases h2 : orEmpty b = "" <;>
    simp [ha, hb, h1, h2]

lemma normalFieldsX_resolution (s : LoopStateX) :
    (normalFieldsX s).amountToChargeOrRefund =
      some (specAmountResolution (orEmpty s.remaining) (orEmpty s.refund)) ∧
    (normalFieldsX s).reasonOfCharge =
      some (specReasonResolution (orEmpty s.remaining) (orEmpty s.refund)) := by
  constructor
  · show some (jsOrStr s.remaining (jsOrStr s.refund "N/A")) = _
    rw [jsOr_amount]
  · show some (if truthyS s.remaining then "Remaining Amount to Charge"
      else if truthyS s.refund then "Amount to Refund" else "N/A") = _
    rw [reason_spec]

lemma normalFieldsV2_resolution (pid pname pinfo rbal : String) (s : LoopStateV2) :
    (normalFieldsV2 pid pname pinfo rbal s).reasonOfCharge = none ∧
    (normalFieldsV2 pid pname pinfo rbal s).amountToChargeOrRefund =
      some (match s.card with
            | none => specAmountResolution (orEmpty s.remaining) (orEmpty s.refund)
            | some c =>
                if c.additionalText = "" then
                  specAmountResolution (orEmpty s.remaining) (orEmpty s.refund)
                else c.additionalText) := by
  refine ⟨rfl, ?_⟩
  show some (jsOrStr (s.card.map (·.additionalText))
    (jsOrStr s.remaining (jsOrStr s.refund "N/A"))) = _
  rw [jsOr_amount]
  cases s.card with
  | none => rfl
  | some c =>
      by_cases hc : c.additionalText = "" <;>
        simp [jsOrStr, hc]

lemma detailX_emit_normal (d : DialogEnvX) (s : LoopStateX)
    (h1 : d.clickThrows = false) (h2 : d.dialogAppears = true)
    (h3 : d.cancelCheckThrows = false) (h4 : d.isCanceled = false)
    (h5 : d.scrollThrows = false) (h6 : runLoopX d.iters loopInitX = some s) :
    detailX d = some (.emit (normalFieldsX s)) := by
  simp [detailX, h1, h2, h3, h4, h5, h6]

lemma detailX_emit_cancel (d : DialogEnvX) (ci : CancelInfo)
    (h1 : d.clickThrows = false) (h2 : d.dialogAppears = true)
    (h3 : d.cancelCheckThrows = false) (h4 : d.isCanceled = true)
    (h5 : d.cancelExtract = some ci) :
    detailX d = some (.emit (cancelFieldsX ci)) := by
  simp [detailX, h1, h2, h3, h4, h5]

/-! ## Divergence of the `index.js` retry loop

When every evaluate of an iteration succeeds but the card number and the
total guest payment are both empty, the loop body leaves the state unchanged
after the first iteration and increments nothing: the guard stays true and
the loop never exits. -/

/-- An iteration on a dialog with neither card data nor a "Total guest
payment" section: all three evaluates succeed, returning empty texts. -/
def iterAllNullX : IterEnvX := ⟨.ret ("", "", ""), .ret ("", "", ""), .ret ("", "")⟩

/-- The loop state after the first such iteration. -/
def stuckStateX : LoopStateX := iterX iterAllNullX loopInitX

/-- The proposition that the `index.js` retry loop is still running after any
number of such iterations. -/
def runsForeverX : Prop :=
  ∀ n : Nat, runLoopX (List.replicate n iterAllNullX) loopInitX = none

lemma runLoopX_stuck_none :
    ∀ n : Nat, runLoopX (List.replicate n iterAllNullX) stuckStateX = none := by
  intro n
  induction n with
  | zero => rfl
  | succ n ih =>
      rw [List.replicate_succ, runLoopX.eq_def]
      have hc : ¬ (loopCondX stuckStateX = false) := by decide
      rw [if_neg hc]
      dsimp only
      have hfix : iterX iterAllNullX stuckStateX = stuckStateX := by decide
      rw [hfix]
      exact ih

lemma runsForeverX_holds : runsForeverX := by
  intro n
  cases n with
  | zero => rfl
  | succ n =>
      rw [List.replicate_succ, runLoopX.eq_def]
      have hc : ¬ (loopCondX loopInitX = false) := by decide
      rw [if_neg hc]
      dsimp only
      have hinit : iterX iterAllNullX loopInitX = stuckStateX := rfl
      rw [hinit]
      exact runLoopX_stuck_none n

/-! ## Concrete environments for witnesses and counterexamples -/

def basicA : BasicData :=
  ⟨"Alice Guest", "1234567", "ABC123", "Jan 1, 2026", "Jan 5, 2026",
   "Suite", "500.00", "Dec 1, 2025"⟩

def basicB : BasicData :=
  ⟨"Bob Guest", "7654321", "XYZ789", "Feb 1, 2026", "Feb 2, 2026",
   "Double", "200.00", "Dec 15, 2025"⟩

def preOkEnv : PreEnv := ⟨false, 1, false⟩

/-- An `index.js` retry-loop iteration whose card evaluate finds a card. -/
def iterCardX : IterEnvX :=
  ⟨.ret ("4111111111111111", "12/30", "123"), .ret ("", "", ""), .ret ("", "")⟩

def cardSampleX : CardDataX := ⟨"4111111111111111", "12/30", "123"⟩

/-- The loop state after `iterCardX`: card present, no payment data, empty
side fields. -/
def stateCardX : LoopStateX := ⟨some cardSampleX, none, some "", some "", 0⟩

def envCardX : DialogEnvX := ⟨false, true, false, false, none, false, [iterCardX]⟩

def viewCardX : PageView DialogEnvX :=
  ⟨false, [.ok basicA envCardX], false, false, false, false⟩

def outCardX : List Record := [⟨basicA, normalFieldsX stateCardX⟩]

/-- A row whose guest-name button lookup throws after the basic fields were
read (`row.$` returns `null` and `.click()` raises). -/
def envClickThrowsX : DialogEnvX := ⟨true, true, false, false, none, false, []⟩

def viewClickFailX : PageView DialogEnvX :=
  ⟨false, [.ok basicB envClickThrowsX], false, false, false, false⟩

/-- A row whose detail dialog never appears within the bounded wait. -/
def envTimeoutX : DialogEnvX := ⟨false, false, false, false, none, false, []⟩

/-- A cancellation dialog whose payment extraction succeeds. -/
def cancelSample : CancelInfo := ⟨"50.00", "45.00", "0.00"⟩

def envCancelX : DialogEnvX := ⟨false, true, false, true, some cancelSample, false, []⟩

/-- A `part_000` iteration finding both an evc card and a payment summary. -/
def iterBothV2 : IterEnvV2 :=
  ⟨.ret (some (some "Active")),
   .ret ("4111111111111111", "12/30", "123", ""),
   .ret (some ("5.00", "", "", "120.00")),
   .ret ("", "")⟩

def envBothV2 : DialogEnvV2 :=
  ⟨false, true, false, false, "N/A", [iterBothV2], false, "Header Hotel"⟩

def viewBothV2 : PageView DialogEnvV2 :=
  ⟨false, [.ok basicA envBothV2], false, false, false, false⟩

/-- The same dialog content but with a title containing "Cancelled"; the
`part_000` variant never reads the title. -/
def envCancelledTitleV2 : DialogEnvV2 :=
  ⟨false, true, true, false, "N/A", [iterBothV2], false, "Header Hotel"⟩

def viewCancelledTitleV2 : PageView DialogEnvV2 :=
  ⟨false, [.ok basicA envCancelledTitleV2], false, false, false, false⟩

/-- A `part_000` iteration with a card carrying a non-empty additional text
and a non-empty "Remaining amount to charge" side field. -/
def iterAdtV2 : IterEnvV2 :=
  ⟨.ret (some none),
   .ret ("4111111111111111", "12/30", "123", "Charge card after checkout"),
   .ret none,
   .ret ("12.50", "")⟩

def envAdtV2 : DialogEnvV2 :=
  ⟨false, true, false, false, "N/A", [iterAdtV2], false, ""⟩

def viewAdtV2 : PageView DialogEnvV2 :=
  ⟨false, [.ok basicA envAdtV2], false, false, false, false⟩

def sheetSample : List SheetRow :=
  [⟨"", "R0"⟩, ⟨"Hotel One", "A"⟩, ⟨"Hotel Two", "C"⟩, ⟨"Hotel One", "A"⟩,
   ⟨"", "R9"⟩, ⟨"Hotel One", "B"⟩]

lemma gdfsGo_filter (l : List SheetRow) :
    ∀ st : GState, gdfsGo (l.filter fun r => ¬ r.prop = "") st = gdfsGo l st := by
  induction l with
  | nil => intro st; rfl
  | cons r rs ih =>
      intro st
      by_cases h : r.prop = ""
      · rw [List.filter_cons, if_neg (by simp [h]), ih st]
        have h2 : gdfsGo (r :: rs) st = gdfsGo rs st := by
          simp only [gdfsGo, gdfsStep_skip st r h]
        rw [h2]
      · rw [List.filter_cons, if_pos (by simp [h])]
        show (match gdfsStep st r with
              | Except.error e => Except.error e
              | Except.ok st1 => gdfsGo (rs.filter fun rr => ¬ rr.prop = "") st1) = _
        cases hs : gdfsStep st r with
        | error e =>
            have h2 : gdfsGo (r :: rs) st = Except.error e := by
              simp only [gdfsGo, hs]
            rw [h2]
        | ok st1 =>
            have h2 : gdfsGo (r :: rs) st = gdfsGo rs st1 := by
              simp only [gdfsGo, hs]
            rw [h2]
            exact ih st1

lemma gdfsGo_all_empty (l : List SheetRow) :
    ∀ st : GState, (∀ r ∈ l, r.prop = "") → gdfsGo l st = .ok st := by
  induction l with
  | nil => intro st _; rfl
  | cons r rs ih =>
      intro st h
      have h0 : r.prop = "" := h r (List.mem_cons_self r rs)
      have h2 : gdfsGo (r :: rs) st = gdfsGo rs st := by
        simp only [gdfsGo, gdfsStep_skip st r h0]
      rw [h2]
      exact ih st fun rr hrr => h rr (List.mem_cons_of_mem _ hrr)

lemma listModify_names (x : String) :
    ∀ (hs : List WorkItem) (j : Nat) (wi : WorkItem),
    wi ∈ listModify (fun h => ⟨h.name, h.idList ++ [x]⟩) j hs →
    ∃ h0 ∈ hs, wi.name = h0.name := by
  intro hs
  induction hs with
  | nil =>
      intro j wi hwi
      simp [listModify] at hwi
  | cons h0 hs ih =>
      intro j wi hwi
      cases j with
      | zero =>
          simp only [listModify] at hwi
          rcases List.mem_cons.mp hwi with hw | hw
          · exact ⟨h0, List.mem_cons_self _ _, by rw [hw]⟩
          · exact ⟨wi, List.mem_cons_of_mem _ hw, rfl⟩
      | succ j =>
          simp only [listModify] at hwi
          rcases List.mem_cons.mp hwi with hw | hw
          · exact ⟨h0, List.mem_cons_self _ _, by rw [hw]⟩
          · obtain ⟨h1, hm1, hn1⟩ := ih j wi hw
            exact ⟨h1, List.mem_cons_of_mem _ hm1, hn1⟩

/-- Every hotel name produced by the grouping loop is non-empty: skipped rows
change nothing, seen rows only extend an idList, and new entries carry a
non-empty property value.  This holds without any prototype-key hypothesis,
since a prototype collision aborts the loop instead of producing entries. -/
lemma gdfsGo_names (l : List SheetRow) :
    ∀ (st st1 : GState), gdfsGo l st = .ok st1 →
    (∀ wi ∈ st.hotels, wi.name ≠ "") → ∀ wi ∈ st1.hotels, wi.name ≠ "" := by
  induction l with
  | nil =>
      intro st st1 h hn
      obtain rfl : st = st1 := by simpa [gdfsGo] using h
      exact hn
  | cons r rs ih =>
      intro st st1 h hn
      cases hs : gdfsStep st r with
      | error e =>
          simp only [gdfsGo, hs] at h
          exact Except.noConfusion h
      | ok st2 =>
          simp only [gdfsGo, hs] at h
          refine ih st2 st1 h ?_
          by_cases h0 : r.prop = ""
          · rw [gdfsStep_skip st r h0] at hs
            obtain rfl : st = st2 := by simpa using hs
            exact hn
          · cases hm : st.m r.prop with
            | some i =>
                rw [gdfsStep_seen st r i h0 hm] at hs
                have hs2 : st2 = ⟨st.m,
                    listModify (fun h => ⟨h.name, h.idList ++ [r.rid]⟩) (i - 1) st.hotels,
                    st.cnt⟩ := by
                  have h3 := Except.ok.inj hs
                  exact h3.symm
                intro wi hwi
                rw [hs2] at hwi
                obtain ⟨hw0, hwm, hwn⟩ := listModify_names r.rid st.hotels (i - 1) wi hwi
                rw [hwn]
                exact hn hw0 hwm
            | none =>
                by_cases hp : protoKeys.contains r.prop = true
                · rw [gdfsStep_proto st r h0 hm hp] at hs
                  exact Except.noConfusion hs
                · rw [gdfsStep_new st r h0 hm (by simpa using hp)] at hs
                  have hs2 : st2 = ⟨fun q => if q = r.prop then some (st.cnt + 1) else st.m q,
                      st.hotels ++ [⟨r.prop, [r.rid]⟩], st.cnt + 1⟩ := by
                    have := Except.ok.inj hs
                    exact this.symm
                  intro wi hwi
                  rw [hs2] at hwi
                  rcases List.mem_append.mp hwi with hw | hw
                  · exact hn wi hw
                  · rw [List.mem_singleton.mp hw]
                    exact h0

/-! ## Claims -/

/-- Claim C1: within one invocation of the reservation page scraper
(`processReservationsPage`, in either variant), no two records of the
returned sequence share a reservationId, even when the same id appears on
two different pages or a page is re-processed after a reload-and-retry:
every push is guarded by the per-session dedup set, to which the id is added
before any push of that row can happen. -/
theorem claim_c1_dedup :
    (∀ (pre : PreEnv) (views : List (PageView DialogEnvX)) (out : List Record),
      processReservationsPageX pre views = some out → (recIds out).Nodup) ∧
    (∀ (pid pname : String) (pre : PreEnv) (views : List (PageView DialogEnvV2))
      (out : List Record),
      processReservationsPageV2 pid pname pre views = some out →
        (recIds out).Nodup) :=
  ⟨fun pre views out h => processReservationsPageG_nodup detailX pre views out h,
   fun pid pname pre views out h =>
     processReservationsPageG_nodup (detailV2 pid pname) pre views out h⟩

/-- Witness for C1: a concrete one-page run emitting one record has
pairwise-distinct reservation ids. -/
theorem claim_c1_dedup_witness : (recIds outCardX).Nodup :=
  claim_c1_dedup.1 preOkEnv [viewCardX] outCardX (by rfl)

/-- Counterexample for C2: in the `part_000` variant, a non-cancelled record
whose card data carries a non-empty additional text gets that text as
`amountToChargeOrRefund` even though `remainingAmountToCharge` is the
non-empty string "12.50", and no `reasonOfCharge` key is ever set. -/
theorem claim_c2_counterexample :
    (processReservationsPageV2 "PID1" "Hotel One" preOkEnv [viewAdtV2]).map
      (List.map fun r => (r.fields.amountToChargeOrRefund,
        r.fields.reasonOfCharge, r.fields.remainingAmountToCharge)) =
      some [(some "Charge card after checkout", none, some "12.50")] ∧
    ("Charge card after checkout" : String) ≠ "12.50" :=
  ⟨by rfl, by decide⟩

/-- Claim C2 (amended): in the `index.js` variant every non-cancelled
emission resolves `amountToChargeOrRefund` and `reasonOfCharge` exactly as
the specification states; in the `part_000` variant the card additional text
takes precedence when non-empty and no `reasonOfCharge` field exists. -/
theorem claim_c2_amended :
    (∀ s : LoopStateX,
      (normalFieldsX s).amountToChargeOrRefund =
        some (specAmountResolution (orEmpty s.remaining) (orEmpty s.refund)) ∧
      (normalFieldsX s).reasonOfCharge =
        some (specReasonResolution (orEmpty s.remaining) (orEmpty s.refund))) ∧
    (∀ (d : DialogEnvX) (s : LoopStateX),
      d.clickThrows = false → d.dialogAppears = true →
      d.cancelCheckThrows = false → d.isCanceled = false →
      d.scrollThrows = false → runLoopX d.iters loopInitX = some s →
      detailX d = some (.emit (normalFieldsX s))) ∧
    (∀ (pid pname pinfo rbal : String) (s : LoopStateV2),
      (normalFieldsV2 pid pname pinfo rbal s).reasonOfCharge = none ∧
      (normalFieldsV2 pid pname pinfo rbal s).amountToChargeOrRefund =
        some (match s.card with
              | none => specAmountResolution (orEmpty s.remaining) (orEmpty s.refund)
              | some c =>
                  if c.additionalText = "" then
                    specAmountResolution (orEmpty s.remaining) (orEmpty s.refund)
                  else c.additionalText)) :=
  ⟨normalFieldsX_resolution, detailX_emit_normal, normalFieldsV2_resolution⟩

/-- Witness for the amended C2 at a concrete dialog environment. -/
theorem claim_c2_amended_witness :
    detailX envCardX = some (.emit (normalFieldsX stateCardX)) ∧
    (normalFieldsX stateCardX).amountToChargeOrRefund = some "N/A" :=
  ⟨claim_c2_amended.2.1 envCardX stateCardX rfl rfl rfl rfl rfl (by rfl),
   (claim_c2_amended.1 stateCardX).1⟩

/-- Counterexample for C3: in the `part_000` variant the payment extraction
runs regardless of the card extraction, so a dialog with both an evc card and
a payment summary yields a record with both flags true. -/
theorem claim_c3_counterexample :
    (processReservationsPageV2 "PID1" "Hotel One" preOkEnv [viewBothV2]).map
      (List.map fun r => (r.fields.hasCardInfo, r.fields.hasPaymentInfo)) =
      some [(some true, some true)] := by
  rfl

/-- Claim C3 (amended): in the `index.js` variant at most one of card data
and payment data is ever populated (never both), and in both variants the
`hasCardInfo`/`hasPaymentInfo` flags are true exactly when the corresponding
extraction returned data; in `part_000` both extractions can succeed
together. -/
theorem claim_c3_amended :
    (∀ (its : List IterEnvX) (s : LoopStateX),
      runLoopX its loopInitX = some s → s.card = none ∨ s.pay = none) ∧
    (∀ s : LoopStateX,
      (normalFieldsX s).hasCardInfo = some s.card.isSome ∧
      (normalFieldsX s).hasPaymentInfo = some s.pay.isSome) ∧
    (∀ ci : CancelInfo,
      (cancelFieldsX ci).hasCardInfo = some false ∧
      (cancelFieldsX ci).hasPaymentInfo = some true) ∧
    (∀ (pid pname pinfo rbal : String) (s : LoopStateV2),
      (normalFieldsV2 pid pname pinfo rbal s).hasCardInfo = some s.card.isSome ∧
      (normalFieldsV2 pid pname pinfo rbal s).hasPaymentInfo = some s.pay.isSome) :=
  ⟨fun its s h => runLoopX_not_both its loopInitX rfl rfl s h,
   fun _ => ⟨rfl, rfl⟩, fun _ => ⟨rfl, rfl⟩,
   fun _ _ _ _ _ => ⟨rfl, rfl⟩⟩

/-- Witness for the amended C3 at a concrete extraction run. -/
theorem claim_c3_amended_witness :
    stateCardX.card = none ∨ stateCardX.pay = none :=
  claim_c3_amended.1 [iterCardX] stateCardX (by rfl)

/-- Claim C4 (evaluation at the failing input): a row whose guest-name
button click throws after the basic fields were read yields a page-level
error (the catch block itself raises a ReferenceError reading the
out-of-scope `basicData`), and after the reload-and-retry the row is
dedup-skipped, so the invocation returns zero records for one guest-visible
row instead of the degraded record the catch block was meant to push. -/
theorem claim_c4_bug :
    processRowG detailX ⟨[], []⟩ (.ok basicB envClickThrowsX) =
      some (.error ⟨[], ["7654321"]⟩) ∧
    processReservationsPageX preOkEnv [viewClickFailX, viewClickFailX] =
      some [] :=
  ⟨by rfl, by rfl⟩

/-- Counterexample for C5: the `part_000` variant never inspects the dialog
title, so a dialog whose title indicates cancellation still yields a record
with `hasCardInfo = true`, a badge status instead of "Cancelled", and no
`reasonOfCharge` field. -/
theorem claim_c5_counterexample :
    envCancelledTitleV2.dialogTitleCancelled = true ∧
    (processReservationsPageV2 "PID1" "Hotel One" preOkEnv
        [viewCancelledTitleV2]).map
      (List.map fun r =>
        (r.fields.hasCardInfo, r.fields.status, r.fields.reasonOfCharge)) =
      some [(some true, some "Active", none)] :=
  ⟨rfl, by rfl⟩

/-- Claim C5 (amended): in the `index.js` variant every record emitted from
a cancellation dialog has `hasCardInfo = false`, `status = "Cancelled"` and
`reasonOfCharge = "Cancellation Fee"`; the `part_000` variant has no
cancellation branch, sets no `reasonOfCharge`, and takes `status` from the
card badge. -/
theorem claim_c5_amended :
    (∀ (d : DialogEnvX) (ci : CancelInfo),
      d.clickThrows = false → d.dialogAppears = true →
      d.cancelCheckThrows = false → d.isCanceled = true →
      d.cancelExtract = some ci →
      detailX d = some (.emit (cancelFieldsX ci))) ∧
    (∀ ci : CancelInfo,
      (cancelFieldsX ci).hasCardInfo = some false ∧
      (cancelFieldsX ci).status = some "Cancelled" ∧
      (cancelFieldsX ci).reasonOfCharge = some "Cancellation Fee") ∧
    (∀ (pid pname pinfo rbal : String) (s : LoopStateV2),
      (normalFieldsV2 pid pname pinfo rbal s).reasonOfCharge = none ∧
      (normalFieldsV2 pid pname pinfo rbal s).status = some s.status) :=
  ⟨detailX_emit_cancel, fun _ => ⟨rfl, rfl, rfl⟩,
   fun _ _ _ _ _ => ⟨rfl, rfl⟩⟩

/-- Witness for the amended C5 at a concrete cancellation dialog. -/
theorem claim_c5_amended_witness :
    detailX envCancelX = some (.emit (cancelFieldsX cancelSample)) ∧
    (cancelFieldsX cancelSample).status = some "Cancelled" :=
  ⟨claim_c5_amended.1 envCancelX cancelSample rfl rfl rfl rfl rfl,
   (claim_c5_amended.2.1 cancelSample).2.1⟩

/-- Counterexample for C6: a property value that is an own property name of
`Object.prototype` (here "toString") makes `hashMap[prop]` truthy on first
sight, so the code takes the already-seen branch, evaluates
`hotels[hashMap[prop] - 1]` = `hotels[NaN]` and throws; the catch of
`getDataFromSheet` returns `[]` instead of the claimed one-entry grouping. -/
theorem claim_c6_counterexample :
    getDataFromSheet [⟨"toString", "A"⟩] = [] ∧
    workItemsSpec [⟨"toString", "A"⟩] = [⟨"toString", ["A"]⟩] ∧
    ([] : List WorkItem) ≠ [⟨"toString", ["A"]⟩] :=
  ⟨by rfl, by rfl, by decide⟩

/-- Claim C6 (amended): for every input sheet none of whose property values
is an own property name of `Object.prototype`, WorkItem construction
produces one entry per distinct property value in first-seen order, each
entry accumulating exactly that property's reservation ids in input row
order with duplicates preserved — the implementation equals the
specification-side grouping. -/
theorem claim_c6_amended :
    ∀ l : List SheetRow, (∀ r ∈ l, protoKeys.contains r.prop = false) →
      getDataFromSheet l = workItemsSpec l :=
  gdfs_eq_spec

/-- Witness for the amended C6 at a concrete sheet with duplicate ids and
interleaved properties. -/
theorem claim_c6_amended_witness :
    getDataFromSheet sheetSample = workItemsSpec sheetSample :=
  claim_c6_amended sheetSample (by decide)

/-- Counterexample for C7: in the `index.js` variant the extraction retry
loop increments `retries` only in its catch block, so on a dialog whose
evaluates all succeed while returning neither card nor payment data the loop
body reaches a fixed point with the guard still true: the loop runs forever,
and in particular never finishes within any number of supplied iterations. -/
theorem claim_c7_counterexample :
    runsForeverX ∧
    iterX iterAllNullX stuckStateX = stuckStateX ∧
    loopCondX stuckStateX = true :=
  ⟨runsForeverX_holds, by decide, by decide⟩

/-- Claim C7 (amended): each blocking wait has its own bounded timeout, and
the `part_000` extraction retry loop does terminate — three iteration
outcomes always suffice — but the `index.js` extraction retry loop can run
forever and the page-level reload-and-retry has no retry cap. -/
theorem claim_c7_amended :
    ∀ (its : List IterEnvV2) (s : LoopStateV2),
      3 ≤ s.retries + its.length → (runLoopV2 its s).isSome = true :=
  runLoopV2_isSome

/-- Witness for the amended C7 at a concrete iteration list. -/
theorem claim_c7_amended_witness :
    (runLoopV2 [iterBothV2, iterBothV2, iterBothV2] loopInitV2).isSome = true :=
  claim_c7_amended [iterBothV2, iterBothV2, iterBothV2] loopInitV2 (by decide)

/-- Claim C8: a run result of 0 records writes no spreadsheet, and a run
result of N > 0 records writes exactly one spreadsheet whose sheet has N + 1
rows (one header row plus one row per record), in both variants. -/
theorem claim_c8_export :
    (∀ rs : List Record, rs = [] → exportReservationsX rs = none) ∧
    (∀ rs : List Record, rs ≠ [] →
      ∃ t, exportReservationsX rs = some t ∧ t.length = rs.length + 1) ∧
    (∀ rs : List Record, rs = [] → exportReservationsV2 rs = none) ∧
    (∀ rs : List Record, rs ≠ [] →
      ∃ t, exportReservationsV2 rs = some t ∧ t.length = rs.length + 1) := by
  refine ⟨?_, ?_, ?_, ?_⟩
  · intro rs h; subst h; rfl
  · intro rs h
    refine ⟨headerRowX :: rs.map recordToRowX, ?_, by simp⟩
    unfold exportReservationsX
    rw [if_pos (List.length_pos.mpr h)]
  · intro rs h; subst h; rfl
  · intro rs h
    refine ⟨headerRowV2 :: rs.map recordToRowV2, ?_, by simp⟩
    unfold exportReservationsV2
    rw [if_pos (List.length_pos.mpr h)]

/-- Witness for C8: the empty run result writes nothing and a one-record run
result writes a two-row sheet. -/
theorem claim_c8_export_witness :
    exportReservationsX [] = none ∧
    ∃ t, exportReservationsX outCardX = some t ∧
      t.length = outCardX.length + 1 :=
  ⟨claim_c8_export.1 [] rfl,
   claim_c8_export.2.1 outCardX (by simp [outCardX])⟩

/-- Claim C9: a row whose dialog never appears within the bounded wait has
its reservationId added to the dedup set before the dialog is awaited, the
skip emits nothing, and once an id is in the dedup set without an emitted
record no later row of the session (later pages and reload-retries included)
can emit a record with that id. -/
theorem claim_c9_timeout_dedup :
    (∀ (s : SessState) (b : BasicData) (d : DialogEnvX),
      d.clickThrows = false → d.dialogAppears = false →
      b.reservationId ∉ s.seen →
      processRowG detailX s (.ok b d) =
        some (.ok ⟨s.records, b.reservationId :: s.seen⟩)) ∧
    (∀ (pid pname : String) (s : SessState) (b : BasicData) (d : DialogEnvV2),
      d.clickThrows = false → d.dialogAppears = false →
      b.reservationId ∉ s.seen →
      processRowG (detailV2 pid pname) s (.ok b d) =
        some (.ok ⟨s.records, b.reservationId :: s.seen⟩)) ∧
    (∀ (δ : Type) (detail : δ → Option DetailResult) (x : String)
      (vs : List (PageView δ)) (s : SessState) (hm : Bool) (out : List Record),
      x ∈ s.seen → x ∉ recIds s.records →
      runPagesG detail vs s hm = some out → x ∉ recIds out) := by
  refine ⟨?_, ?_, ?_⟩
  · intro s b d h1 h2 h3
    simp [processRowG, h3, detailX, h1, h2]
  · intro pid pname s b d h1 h2 h3
    simp [processRowG, h3, detailV2, h1, h2]
  · intro δ detail x vs s hm out h1 h2 h3
    exact runPagesG_frozen detail x vs s hm out h1 h2 h3

/-- Witness for C9 at a concrete timed-out row and a concrete session
state. -/
theorem claim_c9_timeout_dedup_witness :
    processRowG detailX ⟨[], []⟩ (.ok basicA envTimeoutX) =
      some (.ok ⟨[], ["1234567"]⟩) ∧
    ("1234567" : String) ∉ recIds [] :=
  ⟨claim_c9_timeout_dedup.1 ⟨[], []⟩ basicA envTimeoutX rfl rfl (by simp),
   claim_c9_timeout_dedup.2.2 DialogEnvX detailX "1234567" []
     ⟨[], ["1234567"]⟩ false [] (by simp) (by simp [recIds]) (by rfl)⟩

/-- Claim C10: rows whose property column is empty or missing are skipped
entirely by WorkItem construction — the result is unchanged if such rows are
removed from the sheet, and no WorkItem carries an empty property key. -/
theorem claim_c10_skip_empty_property :
    ∀ l : List SheetRow,
      getDataFromSheet l = getDataFromSheet (l.filter fun r => ¬ r.prop = "") ∧
      ∀ wi ∈ getDataFromSheet l, wi.name ≠ "" := by
  intro l
  constructor
  · by_cases hnil : l = []
    · subst hnil; rfl
    · by_cases hf : (l.filter fun r => ¬ r.prop = "") = []
      · have hall : ∀ r ∈ l, r.prop = "" := by
          intro r hr
          by_contra hc
          have hmem : r ∈ l.filter fun rr => ¬ rr.prop = "" :=
            List.mem_filter.mpr ⟨hr, by simpa using hc⟩
          rw [hf] at hmem
          cases hmem
        rw [hf]
        show getDataFromSheet l = []
        unfold getDataFromSheet
        rw [if_neg (by simpa [List.isEmpty_iff] using hnil),
          gdfsGo_all_empty l _ hall]
      · unfold getDataFromSheet
        rw [if_neg (by simpa [List.isEmpty_iff] using hnil),
          if_neg (by simpa [List.isEmpty_iff] using hf),
          gdfsGo_filter l]
  · intro wi hwi
    unfold getDataFromSheet at hwi
    by_cases hnil : l.isEmpty
    · rw [if_pos hnil] at hwi
      cases hwi
    · rw [if_neg hnil] at hwi
      cases hg : gdfsGo l ⟨fun _ => none, [], 0⟩ with
      | error e =>
          rw [hg] at hwi
          simp at hwi
      | ok st =>
          rw [hg] at hwi
          exact gdfsGo_names l _ st hg (by simp) wi hwi

/-- Witness for C10 at a concrete sheet with two empty-property rows. -/
theorem claim_c10_skip_empty_property_witness :
    getDataFromSheet sheetSample =
      getDataFromSheet (sheetSample.filter fun r => ¬ r.prop = "") ∧
    (⟨"Hotel One", ["A", "A", "B"]⟩ : WorkItem).name ≠ "" :=
  ⟨(claim_c10_skip_empty_property sheetSample).1,
   (claim_c10_skip_empty_property sheetSample).2
     ⟨"Hotel One", ["A", "A", "B"]⟩ (by decide)⟩
